import Mathlib

/-!
# Verification of the Intelligent File Organizer

A shallow embedding, in Lean 4, of `projects/python-tools/file_organizer.py`
(class `FileOrganizer`), together with proofs about its behaviour.

Modelling conventions:
* Python strings are Lean `String`s (sequences of code points); `str.lower`
  is modelled for ASCII letters only (`lowerStr`), which covers every string
  the organizer compares (extensions, configured patterns).
* File-system paths are lists of path segments (`FsPath`); a `Path.resolve()`d
  path is simply taken as given.  The textual form used by the code's
  substring test `"organized" not in str(file_path)` joins segments with "/".
* The file system is a finite structure `FS` of directory paths and file
  entries.  A file's `st_mtime` is modelled directly by the year/month pair
  that `datetime.fromtimestamp(...).strftime("%Y-%m")` would extract from it,
  since only that year-month rendering of the timestamp is ever used.
* A JSON config file either parses to a `Config` (`content = some c`) or
  raises `json.JSONDecodeError` on parsing (`content = none`).
* OS-level failures (`os.stat`, `shutil`) that the code catches per file are
  modelled by an oracle `oracle : Path → Bool` saying whether processing a
  given file raises; the deterministic failure of
  `dest_path.relative_to(file_path.parent.parent)` is modelled exactly.
-/

/-- Python's `pattern in s` substring test, on code-point sequences. -/
def strContains (s pat : String) : Bool := decide (pat.data <:+: s.data)

/-- ASCII lowering of a single character, as `str.lower` acts on ASCII. -/
def lowerChar (c : Char) : Char :=
  if 'A' ≤ c ∧ c ≤ 'Z' then Char.ofNat (c.toNat + 32) else c

/-- ASCII `str.lower`. -/
def lowerStr (s : String) : String := ⟨s.data.map lowerChar⟩

/-- `pathlib.PurePath.suffix`/`.stem` of a file name: split at the last dot
`i` when `0 < i < len - 1`; otherwise the suffix is empty.  Returns
`(stem, suffix)`. -/
def splitName (name : String) : String × String :=
  let cs := name.data
  match (List.range cs.length).filter (fun i => cs.getD i ' ' = '.') |>.max? with
  | some i =>
      if 0 < i ∧ i < cs.length - 1 then (⟨cs.take i⟩, ⟨cs.drop i⟩)
      else (name, "")
  | none => (name, "")

/-- One entry of a category's `"subfolders"` mapping. -/
structure SubfolderRule where
  name : String
  patterns : List String
deriving DecidableEq

/-- One entry of the configuration's `"rules"` mapping.  `subfolders = none`
models a rule object without a `"subfolders"` key. -/
structure CategoryRule where
  name : String
  extensions : List String
  folder : String
  subfolders : Option (List SubfolderRule)
deriving DecidableEq

/-- The organizer configuration (`self.config`).  Mappings keep insertion
order, as Python dicts do. -/
structure Config where
  rules : List CategoryRule
  ignore_folders : List String
  dry_run : Bool
  create_date_folders : Bool
  backup_enabled : Bool
deriving DecidableEq

/-- The `default_config` literal of `FileOrganizer.load_config`. -/
def default_config : Config where
  rules :=
    [ { name := "images"
      , extensions := [".jpg", ".jpeg", ".png", ".gif", ".bmp", ".tiff", ".svg"]
      , folder := "Images"
      , subfolders := some
          [ ⟨"screenshots", ["screenshot", "screen_shot", "capture"]⟩
          , ⟨"photos", ["photo", "img", "picture"]⟩
          , ⟨"icons", ["icon", "ico"]⟩ ] }
    , { name := "documents"
      , extensions := [".pdf", ".doc", ".docx", ".txt", ".rtf", ".odt"]
      , folder := "Documents"
      , subfolders := some
          [ ⟨"pdfs", [".pdf"]⟩
          , ⟨"word_docs", [".doc", ".docx"]⟩
          , ⟨"text_files", [".txt", ".rtf"]⟩ ] }
    , { name := "videos"
      , extensions := [".mp4", ".avi", ".mov", ".wmv", ".flv", ".mkv"]
      , folder := "Videos"
      , subfolders := some
          [ ⟨"movies", ["movie", "film"]⟩
          , ⟨"tutorials", ["tutorial", "guide", "how_to"]⟩ ] }
    , { name := "audio"
      , extensions := [".mp3", ".wav", ".flac", ".aac", ".ogg"]
      , folder := "Audio"
      , subfolders := some
          [ ⟨"music", ["music", "song"]⟩
          , ⟨"podcasts", ["podcast", "episode"]⟩
          , ⟨"sounds", ["sound", "sfx", "effect"]⟩ ] }
    , { name := "archives"
      , extensions := [".zip", ".rar", ".7z", ".tar", ".gz", ".bz2"]
      , folder := "Archives"
      , subfolders := none }
    , { name := "code"
      , extensions := [".py", ".js", ".html", ".css", ".cpp", ".java", ".c"]
      , folder := "Code"
      , subfolders := some
          [ ⟨"python", [".py"]⟩
          , ⟨"web", [".html", ".css", ".js"]⟩
          , ⟨"cpp", [".cpp", ".c", ".h"]⟩ ] }
    ]
  ignore_folders := ["organized", "system", "program files", "windows"]
  dry_run := false
  create_date_folders := true
  backup_enabled := true

/-- Does one configured pattern match?  `pattern in file_name or
pattern == file_ext` from `get_file_category`. -/
def patternMatches (stem ext pat : String) : Bool :=
  strContains stem pat || pat == ext

/-- The inner loops of `get_file_category`: first subfolder, in order, one of
whose patterns matches. -/
def findSubfolder (stem ext : String) : List SubfolderRule → Option String
  | [] => none
  | sf :: rest =>
      if sf.patterns.any (patternMatches stem ext) then some sf.name
      else findSubfolder stem ext rest

/-- The outer loop of `get_file_category` over `self.config["rules"]`. -/
def categoryLoop (stem ext : String) : List CategoryRule → String × String
  | [] => ("misc", "")
  | r :: rest =>
      if r.extensions.contains ext then
        match r.subfolders with
        | some sfs =>
            match findSubfolder stem ext sfs with
            | some sf => (r.name, sf)
            | none => (r.name, "")
        | none => (r.name, "")
      else categoryLoop stem ext rest

/-- `FileOrganizer.get_file_category`, acting on the file's name (the
`suffix`/`stem` of a `Path` depend only on its final component). -/
def get_file_category (cfg : Config) (name : String) : String × String :=
  let (stem0, suffix0) := splitName name
  categoryLoop (lowerStr stem0) (lowerStr suffix0) cfg.rules

/-- Restatement of the classifier contract in the spec's words: the *first*
category, in configuration order, whose extension list contains the
lower-cased extension; within it the *first* subfolder whose pattern list
contains a pattern that is a substring of the lower-cased stem or equals the
extension; `(category, "")` with no matching subfolder; `("misc", "")` when
no extension list matches. -/
def classifySpec (cfg : Config) (name : String) : String × String :=
  let (stem0, suffix0) := splitName name
  let ext := lowerStr suffix0
  let stem := lowerStr stem0
  match cfg.rules.find? (fun r => r.extensions.contains ext) with
  | none => ("misc", "")
  | some r =>
      match (r.subfolders.getD []).find?
          (fun sf => sf.patterns.any (patternMatches stem ext)) with
      | some sf => (r.name, sf.name)
      | none => (r.name, "")

/-- Numeric value of a decimal digit character. -/
def charVal (c : Char) : Nat := c.toNat - 48

/-- Decimal digits of `n`, most significant first; `fuel`-bounded recursion on
`n / 10`. -/
def natDigits : Nat → Nat → List Char
  | 0, _ => []
  | fuel + 1, n =>
      if n < 10 then [Nat.digitChar n]
      else natDigits fuel (n / 10) ++ [Nat.digitChar (n % 10)]

/-- Decimal rendering of a natural number, as Python's `str(counter)`. -/
def natRepr (n : Nat) : String := ⟨natDigits (n + 1) n⟩

/-- Value of a decimal digit string, used to invert `natDigits`. -/
def decVal (cs : List Char) : Nat := cs.foldl (fun a c => 10 * a + charVal c) 0

/-- The sequence of names tried by the collision loop of `organize_file`:
first `stem ++ suffix` (`file_path.name`), then `stem_1`, `stem_2`, … with
the numeric counter inserted before the extension. -/
def conflictName (stem suffix : String) (k : Nat) : String :=
  if k = 0 then stem ++ suffix else stem ++ "_" ++ natRepr k ++ suffix

/-- The `while dest_path.exists()` loop of `organize_file`, over the set
`taken` of entry names present in the destination folder.  `fuel` bounds the
number of iterations; `organize_file` always supplies `taken.length + 1`,
which is proven sufficient below. -/
def findFree (taken : List String) (stem suffix : String) : Nat → Nat → Option String
  | 0, _ => none
  | fuel + 1, k =>
      if taken.contains (conflictName stem suffix k) then
        findFree taken stem suffix fuel (k + 1)
      else some (conflictName stem suffix k)

/-- A resolved file-system path, as its list of segments. -/
abbrev FsPath := List String

/-- The year and month that `datetime.fromtimestamp(st_mtime)` carries; only
its `strftime("%Y-%m")` rendering is ever used by the organizer. -/
structure DateYM where
  year : Nat
  month : Nat
deriving DecidableEq

/-- A file on disk.  `content` models what `json.load` would yield for it:
`some c` when it parses to a configuration, `none` when parsing raises
`json.JSONDecodeError` (only consulted for the configuration file). -/
structure FileEntry where
  path : FsPath
  mtime : DateYM
  content : Option Config := none
deriving DecidableEq

/-- The file system: a finite set of directories and of files. -/
structure FS where
  dirs : List FsPath
  files : List FileEntry
deriving DecidableEq

/-- `Path.exists()`: true for a directory or a file. -/
def FS.existsPath (fs : FS) (p : FsPath) : Bool :=
  fs.dirs.contains p || fs.files.any (fun e => e.path == p)

def FS.findFile (fs : FS) (p : FsPath) : Option FileEntry :=
  fs.files.find? (fun e => e.path == p)

/-- `mkdir(exist_ok=True)` (no parents). -/
def FS.mkdir1 (fs : FS) (p : FsPath) : FS :=
  if fs.dirs.contains p then fs else { fs with dirs := p :: fs.dirs }

/-- All nonempty prefixes of a path, shortest first. -/
def prefixesOf (p : FsPath) : List FsPath :=
  (List.range p.length).map (fun k => p.take (k + 1))

/-- `mkdir(parents=True, exist_ok=True)`. -/
def FS.mkdirP (fs : FS) (p : FsPath) : FS :=
  (prefixesOf p).foldl FS.mkdir1 fs

/-- `save_config`: (over)write the configuration file. -/
def FS.writeFile (fs : FS) (p : FsPath) (c : Config) : FS :=
  { fs with files := ⟨p, ⟨1970, 1⟩, some c⟩ :: fs.files.filter (fun x => x.path != p) }

/-- `shutil.copy2`: copy the file, preserving metadata. -/
def FS.copyTo (fs : FS) (e : FileEntry) (dest : FsPath) : FS :=
  { fs with files := ⟨dest, e.mtime, e.content⟩ :: fs.files.filter (fun x => x.path != dest) }

def FS.removeFile (fs : FS) (p : FsPath) : FS :=
  { fs with files := fs.files.filter (fun x => x.path != p) }

/-- The `self.stats` counter record. -/
structure Stats where
  files_processed : Nat
  files_moved : Nat
  directories_created : Nat
  errors : Nat
deriving DecidableEq

/-- The counters as initialised in `FileOrganizer.__init__`. -/
def initStats : Stats := ⟨0, 0, 0, 0⟩

/-- Two-digit zero padding, as `strftime` renders the month. -/
def pad2 (n : Nat) : String := if n < 10 then "0" ++ natRepr n else natRepr n

/-- `file_date.strftime("%Y-%m")` (years of at least four digits render as
their decimal digits). -/
def formatYM (d : DateYM) : String := natRepr d.year ++ "-" ++ pad2 d.month

def msgLoadedConfig : String := "Loaded configuration"

def msgInvalidConfig : String := "Invalid config file, using defaults"

def msgCreatedConfig : String := "Created default configuration"

/-- `FileOrganizer.load_config` (with `save_config` inlined): an existing
file is parsed, falling back to `default_config` on `json.JSONDecodeError`;
an absent file causes the defaults to be written to disk.  A config path
that exists but is not a file makes `open` raise (uncaught). -/
def load_config (fs : FS) (configPath : FsPath) : Except String (Config × FS × List String) :=
  if fs.existsPath configPath then
    match fs.findFile configPath with
    | some e =>
        match e.content with
        | some c => .ok (c, fs, [msgLoadedConfig])
        | none => .ok (default_config, fs, [msgInvalidConfig])
    | none => .error "IsADirectoryError"
  else .ok (default_config, fs.writeFile configPath default_config, [msgCreatedConfig])

/-- Inner loop of `create_organized_structure` over one category's
subfolders. -/
def createSubDirs (dry : Bool) (cname : String) (cpath : FsPath) :
    List SubfolderRule → FS → Stats → List (String × FsPath) → FS × Stats × List (String × FsPath)
  | [], fs, st, m => (fs, st, m)
  | sf :: rest, fs, st, m =>
      let sp := cpath ++ [sf.name]
      let fs1 := if dry then fs else fs.mkdir1 sp
      let st1 := if dry then st
        else { st with directories_created := st.directories_created + 1 }
      createSubDirs dry cname cpath rest fs1 st1 ((cname ++ "_" ++ sf.name, sp) :: m)

/-- Outer loop of `create_organized_structure` over the configured rules. -/
def createCategoryDirs (dry : Bool) (organized : FsPath) :
    List CategoryRule → FS → Stats → List (String × FsPath) → FS × Stats × List (String × FsPath)
  | [], fs, st, m => (fs, st, m)
  | r :: rest, fs, st, m =>
      let cpath := organized ++ [r.folder]
      let fs1 := if dry then fs else fs.mkdirP cpath
      let st1 := if dry then st
        else { st with directories_created := st.directories_created + 1 }
      let out := createSubDirs dry r.name cpath (r.subfolders.getD []) fs1 st1 ((r.name, cpath) :: m)
      createCategoryDirs dry organized rest out.1 out.2.1 out.2.2

/-- `FileOrganizer.create_organized_structure`.  The folder map is an
association list where the most recent binding for a key shadows older ones,
matching Python dict assignment; the `Miscellaneous` folder's creation does
not touch the counters, exactly as in the code. -/
def create_organized_structure (cfg : Config) (base : FsPath) (fs : FS) (st : Stats) :
    FS × Stats × List (String × FsPath) :=
  let organized := base ++ ["organized"]
  let out := createCategoryDirs cfg.dry_run organized cfg.rules fs st []
  let misc := organized ++ ["Miscellaneous"]
  let fs2 := if cfg.dry_run then out.1 else out.1.mkdirP misc
  (fs2, out.2.1, ("misc", misc) :: out.2.2)

/-- `some n` when `p` is the entry named `n` directly inside `dir`. -/
def childName (dir : FsPath) (p : FsPath) : Option String :=
  match p.getLast? with
  | none => none
  | some n => if p = dir ++ [n] then some n else none

/-- The names of all entries (directories or files) directly inside `dir`:
the set the collision loop's `dest_path.exists()` probes ranges over. -/
def namesIn (fs : FS) (dir : FsPath) : List String :=
  fs.dirs.filterMap (childName dir) ++ fs.files.filterMap (fun e => childName dir e.path)

/-- `file_path.name`. -/
def fileName (p : FsPath) : String := p.getLastD ""

/-- Destination folder lookup of `organize_file` (before the date folder):
`folder_map.get(f"{category}_{subfolder}", folder_map[category])`, whose
default argument `folder_map[category]` Python evaluates first and which
raises `KeyError` (`none`) when the category key is absent. -/
def destFolder0 (cfg : Config) (fmap : List (String × FsPath)) (name : String) : Option FsPath :=
  let cs := get_file_category cfg name
  match fmap.lookup cs.1 with
  | none => none
  | some base =>
      if cs.2 ≠ "" then some ((fmap.lookup (cs.1 ++ "_" ++ cs.2)).getD base)
      else some base

/-- The fully resolved destination folder of a file, date folder included. -/
def finalDestFolder (cfg : Config) (fmap : List (String × FsPath)) (f : FileEntry) : Option FsPath :=
  (destFolder0 cfg fmap (fileName f.path)).map
    (fun d0 => if cfg.create_date_folders then d0 ++ [formatYM f.mtime] else d0)

def actionLabel (cfg : Config) : String := if cfg.backup_enabled then "COPY" else "MOVE"

def actionMsg (cfg : Config) (name : String) : String := actionLabel cfg ++ ": " ++ name

/-- `FileOrganizer.organize_file`.  `oracle f.path = true` models an OS-level
exception (`stat`, `shutil`, …) while handling this file; the `ValueError`
branch is `dest_path.relative_to(file_path.parent.parent)` failing because
the destination is not below that directory. -/
def organize_file (cfg : Config) (fmap : List (String × FsPath)) (oracle : FsPath → Bool)
    (f : FileEntry) (fs : FS) (st : Stats) (log : List String) :
    Except String (FS × Stats × List String) :=
  if oracle f.path then .error "OSError" else
  match destFolder0 cfg fmap (fileName f.path) with
  | none => .error "KeyError"
  | some d0 =>
      let dest_folder := if cfg.create_date_folders then d0 ++ [formatYM f.mtime] else d0
      let fs1 := if cfg.create_date_folders && !cfg.dry_run then fs.mkdir1 dest_folder else fs
      let sp := splitName (fileName f.path)
      let taken := namesIn fs1 dest_folder
      match findFree taken sp.1 sp.2 (taken.length + 1) 0 with
      | none => .error "unreachable"
      | some newName =>
          let dest := dest_folder ++ [newName]
          if (f.path.dropLast.dropLast).isPrefixOf dest then
            let log1 := log ++ [actionMsg cfg (fileName f.path)]
            if cfg.dry_run then .ok (fs1, st, log1)
            else if cfg.backup_enabled then
              .ok (fs1.copyTo f dest, { st with files_moved := st.files_moved + 1 }, log1)
            else
              .ok ((fs1.removeFile f.path).copyTo f dest,
                { st with files_moved := st.files_moved + 1 }, log1)
          else .error "ValueError"

/-- `str(file_path)` for the substring test of the recursive walk. -/
def pathStr (p : FsPath) : String := String.intercalate "/" p

/-- `FileOrganizer.should_ignore_folder`. -/
def should_ignore_folder (cfg : Config) (name : String) : Bool :=
  cfg.ignore_folders.any (fun ig => strContains (lowerStr name) ig)

/-- Do all directories strictly between `source` and `p` exist?  `os.walk`
only reaches a file by descending through its parent directories. -/
def ancestorsExist (fs : FS) (source p : FsPath) : Bool :=
  (List.range' (source.length + 1) (p.length - source.length - 1)).all
    (fun k => fs.dirs.contains (p.take k))

/-- Candidate test of the recursive `os.walk` gathering loop: the file lies
below `source` (through existing directories), no directory on the way is
pruned by `should_ignore_folder`, and `"organized" not in str(file_path)`. -/
def isCandidate (cfg : Config) (fs : FS) (source : FsPath) (p : FsPath) : Bool :=
  source.isPrefixOf p && decide (source.length < p.length)
    && ancestorsExist fs source p
    && ((p.drop source.length).dropLast.all (fun d => !should_ignore_folder cfg d))
    && !strContains (pathStr p) "organized"

/-- The candidate files gathered by the recursive branch of
`organize_directory`. -/
def gatherRecursive (cfg : Config) (fs : FS) (source : FsPath) : List FileEntry :=
  fs.files.filter (fun f => isCandidate cfg fs source f.path)

/-- The non-recursive branch: `f for f in source.iterdir() if f.is_file()`. -/
def gatherFlat (fs : FS) (source : FsPath) : List FileEntry :=
  fs.files.filter (fun f => (childName source f.path).isSome)

def candidateFiles (cfg : Config) (fs : FS) (source : FsPath) (recursive : Bool) : List FileEntry :=
  if recursive then gatherRecursive cfg fs source else gatherFlat fs source

def msgFileError (name : String) : String := "Error processing " ++ name

/-- The per-file loop of `organize_directory`: `try: organize_file; +1
files_processed; except: +1 errors` and continue with the rest. -/
def processFiles (cfg : Config) (fmap : List (String × FsPath)) (oracle : FsPath → Bool) :
    List FileEntry → FS → Stats → List String → FS × Stats × List String
  | [], fs, st, log => (fs, st, log)
  | f :: rest, fs, st, log =>
      match organize_file cfg fmap oracle f fs st log with
      | .ok out =>
          processFiles cfg fmap oracle rest out.1
            { out.2.1 with files_processed := out.2.1.files_processed + 1 } out.2.2
      | .error _ =>
          processFiles cfg fmap oracle rest fs
            { st with errors := st.errors + 1 } (log ++ [msgFileError (fileName f.path)])

def msgNoSource : String := "Source directory does not exist"

/-- `FileOrganizer.organize_directory` on an already-resolved source path. -/
def organize_directory (cfg : Config) (oracle : FsPath → Bool) (fs : FS) (source : FsPath)
    (recursive : Bool) (st : Stats) : FS × Stats × List String :=
  if fs.existsPath source then
    let out := create_organized_structure cfg source fs st
    let files := candidateFiles cfg out.1 source recursive
    processFiles cfg out.2.2 oracle files out.1 out.2.1 []
  else (fs, st, [msgNoSource])

/-- One CLI invocation of `main` (no `--analyze`): construct the organizer
(loading or creating the configuration), set `dry_run` unless `--execute`
was passed, and organize. -/
def runOrganizer (fs : FS) (configPath source : FsPath) (recursive execute : Bool)
    (oracle : FsPath → Bool) : FS × Stats × List String :=
  match load_config fs configPath with
  | .error e => (fs, initStats, [e])
  | .ok out =>
      let cfg := if execute then out.1 else { out.1 with dry_run := true }
      let res := organize_directory cfg oracle out.2.1 source recursive initStats
      (res.1, res.2.1, out.2.2 ++ res.2.2)

/-- A one-category configuration for concrete runs: `.txt` files go to
`Docs`, no subfolders, no date folders, copy mode. -/
def cfgW : Config :=
  ⟨[⟨"docs", [".txt"], "Docs", none⟩], [], false, false, true⟩

def fmapW : List (String × FsPath) := [("docs", ["d", "Docs"])]

/-- A source file whose destination `d/Docs/a.txt` is already taken. -/
def fW : FileEntry := ⟨["s", "a.txt"], ⟨2024, 1⟩, none⟩

def fsW : FS := ⟨[["d", "Docs"]], [⟨["d", "Docs", "a.txt"], ⟨2023, 1⟩, none⟩, fW]⟩

/-- A file three levels below the source directory `src`:
`file_path.parent.parent` is `src/a`, which does not contain the organized
root. -/
def fD : FileEntry := ⟨["src", "a", "b", "c.txt"], ⟨2024, 1⟩, none⟩

/-- A file system where `fD` is reachable by the recursive walk and its
resolved destination `src/organized/Docs/c.txt` is already occupied. -/
def fsD : FS :=
  ⟨[["src"], ["src", "a"], ["src", "a", "b"], ["src", "organized"],
    ["src", "organized", "Docs"]],
   [fD, ⟨["src", "organized", "Docs", "c.txt"], ⟨2023, 1⟩, none⟩]⟩

theorem findSubfolder_eq_find? (stem ext : String) (sfs : List SubfolderRule) :
    findSubfolder stem ext sfs =
      (sfs.find? (fun sf => sf.patterns.any (patternMatches stem ext))).map
        (fun sf => sf.name) := by
  induction sfs with
  | nil => rfl
  | cons sf rest ih =>
      by_cases h : sf.patterns.any (patternMatches stem ext)
      · simp [findSubfolder, h, List.find?]
      · simp only [Bool.not_eq_true] at h
        simp [findSubfolder, h, List.find?, ih]

theorem categoryLoop_eq_spec (stem ext : String) (rules : List CategoryRule) :
    categoryLoop stem ext rules =
      (match rules.find? (fun r => r.extensions.contains ext) with
       | none => ("misc", "")
       | some r =>
           match (r.subfolders.getD []).find?
               (fun sf => sf.patterns.any (patternMatches stem ext)) with
           | some sf => (r.name, sf.name)
           | none => (r.name, "")) := by
  induction rules with
  | nil => rfl
  | cons r rest ih =>
      by_cases h : r.extensions.contains ext = true
      · rw [@List.find?_cons_of_pos _ (fun r => r.extensions.contains ext) r rest h]
        unfold categoryLoop
        rw [if_pos h]
        cases hsf : r.subfolders with
        | none => simp [hsf]
        | some sfs =>
            simp only [hsf, Option.getD_some]
            rw [findSubfolder_eq_find?]
            cases hfind : sfs.find? (fun sf => sf.patterns.any (patternMatches stem ext)) <;>
              simp [hfind]
      · rw [@List.find?_cons_of_neg _ (fun r => r.extensions.contains ext) r rest (by simpa using h)]
        unfold categoryLoop
        rw [if_neg h]
        exact ih

/-- **C1.** `get_file_category` returns the first category, in configuration
iteration order, whose extensions list contains the file's lower-cased
extension, paired with the first subfolder, in that category's iteration
order, one of whose patterns is a substring of the lower-cased stem or equals
the extension; `(category, "")` when the category has no matching subfolder,
and `("misc", "")` when no category's extension list contains the
extension. -/
theorem get_file_category_correct (cfg : Config) (name : String) :
    get_file_category cfg name = classifySpec cfg name := by
  unfold get_file_category classifySpec
  exact categoryLoop_eq_spec _ _ _

example : get_file_category default_config "screenshot_2024.png" = ("images", "screenshots") := by
  decide

example : get_file_category default_config "notes.xyz" = ("misc", "") := by
  decide

example : get_file_category default_config "archive.zip" = ("archives", "") := by
  decide

example : get_file_category default_config "REPORT.PDF" = ("documents", "pdfs") := by
  decide

theorem decVal_append_last (xs : List Char) (c : Char) :
    decVal (xs ++ [c]) = 10 * decVal xs + charVal c := by
  simp [decVal, List.foldl_append]

theorem charVal_digitChar (d : Nat) (h : d < 10) :
    charVal (Nat.digitChar d) = d := by
  interval_cases d <;> decide

theorem decVal_natDigits : ∀ fuel n, n < fuel → decVal (natDigits fuel n) = n := by
  intro fuel
  induction fuel with
  | zero => intro n h; omega
  | succ fuel ih =>
      intro n h
      by_cases h10 : n < 10
      · simp [natDigits, h10, decVal, charVal_digitChar n h10]
      · have hdiv : n / 10 < n := Nat.div_lt_self (by omega) (by omega)
        have hmod : n % 10 < 10 := Nat.mod_lt _ (by omega)
        rw [natDigits, if_neg h10, decVal_append_last, ih (n / 10) (by omega),
          charVal_digitChar _ hmod]
        have := Nat.div_add_mod n 10
        omega

theorem natRepr_inj {m n : Nat} (h : natRepr m = natRepr n) : m = n := by
  have hd : natDigits (m + 1) m = natDigits (n + 1) n := congrArg String.data h
  have hv := congrArg decVal hd
  rw [decVal_natDigits _ _ (by omega), decVal_natDigits _ _ (by omega)] at hv
  exact hv

theorem conflictName_inj (stem suffix : String) {i j : Nat}
    (h : conflictName stem suffix i = conflictName stem suffix j) : i = j := by
  unfold conflictName at h
  rcases Nat.eq_zero_or_pos i with hi | hi <;>
    rcases Nat.eq_zero_or_pos j with hj | hj
  · omega
  · subst hi
    rw [if_pos rfl, if_neg (by omega)] at h
    have := congrArg String.length h
    simp only [String.length_append] at this
    have hr : 1 ≤ ("_" : String).length := by decide
    omega
  · subst hj
    rw [if_neg (by omega), if_pos rfl] at h
    have := congrArg String.length h
    simp only [String.length_append] at this
    have hr : 1 ≤ ("_" : String).length := by decide
    omega
  · rw [if_neg (by omega), if_neg (by omega)] at h
    have hd := congrArg String.data h
    simp only [String.data_append, List.append_assoc] at hd
    have h2 := List.append_cancel_left hd
    have h3 := List.append_cancel_left h2
    have h4 := List.append_cancel_right h3
    exact natRepr_inj (String.ext h4)

theorem findFree_spec (taken : List String) (stem suffix : String) :
    ∀ fuel k0, (∃ j, j < fuel ∧ conflictName stem suffix (k0 + j) ∉ taken) →
    ∃ j, j < fuel ∧
      findFree taken stem suffix fuel k0 = some (conflictName stem suffix (k0 + j)) ∧
      conflictName stem suffix (k0 + j) ∉ taken ∧
      ∀ i, i < j → conflictName stem suffix (k0 + i) ∈ taken := by
  intro fuel
  induction fuel with
  | zero =>
      rintro k0 ⟨j, hj, -⟩
      omega
  | succ fuel ih =>
      rintro k0 ⟨j, hj, hfree⟩
      by_cases hc : taken.contains (conflictName stem suffix k0) = true
      · have hmem : conflictName stem suffix k0 ∈ taken := by simpa using hc
        have hj0 : j ≠ 0 := by
          rintro rfl
          exact hfree (by simpa using hmem)
        obtain ⟨j', rfl⟩ : ∃ j', j = j' + 1 := ⟨j - 1, by omega⟩
        have hex : ∃ j2, j2 < fuel ∧ conflictName stem suffix ((k0 + 1) + j2) ∉ taken :=
          ⟨j', by omega, by rw [show k0 + 1 + j' = k0 + (j' + 1) by omega]; exact hfree⟩
        obtain ⟨j2, hj2, heq, hfree2, hmin2⟩ := ih (k0 + 1) hex
        refine ⟨j2 + 1, by omega, ?_, ?_, ?_⟩
        · rw [findFree, if_pos hc, show k0 + (j2 + 1) = (k0 + 1) + j2 by omega]
          exact heq
        · rw [show k0 + (j2 + 1) = (k0 + 1) + j2 by omega]
          exact hfree2
        · intro i hi
          cases i with
          | zero => simpa using hmem
          | succ i' =>
              rw [show k0 + (i' + 1) = (k0 + 1) + i' by omega]
              exact hmin2 i' (by omega)
      · refine ⟨0, by omega, ?_, ?_, ?_⟩
        · rw [findFree, if_neg hc, Nat.add_zero]
        · rw [Nat.add_zero]
          simpa using hc
        · intro i hi
          omega

theorem conflict_escape (taken : List String) (stem suffix : String) :
    ∃ j, j < taken.length + 1 ∧ conflictName stem suffix j ∉ taken := by
  by_contra hall
  push_neg at hall
  have hmap : ∀ a ∈ Finset.range (taken.length + 1),
      conflictName stem suffix a ∈ taken.toFinset := by
    intro a ha
    rw [List.mem_toFinset]
    exact hall a (Finset.mem_range.mp ha)
  have hinj : Set.InjOn (conflictName stem suffix) ↑(Finset.range (taken.length + 1)) :=
    fun a _ b _ h => conflictName_inj stem suffix h
  have hcard := Finset.card_le_card_of_injOn _ hmap hinj
  rw [Finset.card_range] at hcard
  have h2 := taken.toFinset_card_le
  omega

/-- **C8.** For every finite set of existing directory entries, the
collision-renaming loop of `organize_file` (run with the fuel
`taken.length + 1` that `organize_file` supplies) terminates with a
destination name that is not already present in that set. -/
theorem findFree_terminates (taken : List String) (stem suffix : String) :
    ∃ name, findFree taken stem suffix (taken.length + 1) 0 = some name ∧ name ∉ taken := by
  obtain ⟨j, hj, hfree⟩ := conflict_escape taken stem suffix
  obtain ⟨j2, -, heq, hfree2, -⟩ :=
    findFree_spec taken stem suffix (taken.length + 1) 0
      ⟨j, hj, by simpa using hfree⟩
  exact ⟨_, heq, hfree2⟩

example : findFree ["a.txt"] "a" ".txt" 2 0 = some "a_1.txt" := by decide

example : findFree ["a.txt", "a_1.txt", "a_2.txt"] "a" ".txt" 4 0 = some "a_3.txt" := by
  decide

theorem createSubDirs_dry (cname : String) (cpath : FsPath) :
    ∀ sfs (fs : FS) (st : Stats) m,
      (createSubDirs true cname cpath sfs fs st m).1 = fs ∧
      (createSubDirs true cname cpath sfs fs st m).2.1 = st := by
  intro sfs
  induction sfs with
  | nil => intro fs st m; exact ⟨rfl, rfl⟩
  | cons sf rest ih => intro fs st m; exact ih fs st _

theorem createCategoryDirs_dry (organized : FsPath) :
    ∀ rules (fs : FS) (st : Stats) m,
      (createCategoryDirs true organized rules fs st m).1 = fs ∧
      (createCategoryDirs true organized rules fs st m).2.1 = st := by
  intro rules
  induction rules with
  | nil => intro fs st m; exact ⟨rfl, rfl⟩
  | cons r rest ih =>
      intro fs st m
      have key : createCategoryDirs true organized (r :: rest) fs st m =
          createCategoryDirs true organized rest
            (createSubDirs true r.name (organized ++ [r.folder]) (r.subfolders.getD [])
              fs st ((r.name, organized ++ [r.folder]) :: m)).1
            (createSubDirs true r.name (organized ++ [r.folder]) (r.subfolders.getD [])
              fs st ((r.name, organized ++ [r.folder]) :: m)).2.1
            (createSubDirs true r.name (organized ++ [r.folder]) (r.subfolders.getD [])
              fs st ((r.name, organized ++ [r.folder]) :: m)).2.2 := rfl
      rw [key]
      obtain ⟨e1, e2⟩ := createSubDirs_dry r.name (organized ++ [r.folder])
        (r.subfolders.getD []) fs st ((r.name, organized ++ [r.folder]) :: m)
      rw [e1, e2]
      exact ih fs st _

theorem create_organized_structure_dry (cfg : Config) (base : FsPath) (fs : FS) (st : Stats)
    (hdry : cfg.dry_run = true) :
    (create_organized_structure cfg base fs st).1 = fs ∧
    (create_organized_structure cfg base fs st).2.1 = st := by
  unfold create_organized_structure
  rw [hdry]
  simp only [if_true]
  exact createCategoryDirs_dry _ cfg.rules fs st []

theorem organize_file_dry (cfg : Config) (fmap : List (String × FsPath))
    (oracle : FsPath → Bool) (f : FileEntry) (fs : FS) (st : Stats) (log : List String)
    (out : FS × Stats × List String) (hdry : cfg.dry_run = true)
    (h : organize_file cfg fmap oracle f fs st log = .ok out) :
    out.1 = fs ∧ out.2.1 = st := by
  unfold organize_file at h
  simp only [hdry, Bool.not_true, Bool.and_false, Bool.false_eq_true, if_false, if_true] at h
  repeat' split at h
  all_goals
    first
      | exact Except.noConfusion h
      | (simp only [Except.ok.injEq] at h
         subst h
         exact ⟨rfl, rfl⟩)

theorem processFiles_dry (cfg : Config) (fmap : List (String × FsPath))
    (oracle : FsPath → Bool) (hdry : cfg.dry_run = true) :
    ∀ files (fs : FS) (st : Stats) (log : List String),
      (processFiles cfg fmap oracle files fs st log).1 = fs := by
  intro files
  induction files with
  | nil => intro fs st log; rfl
  | cons f rest ih =>
      intro fs st log
      unfold processFiles
      cases hof : organize_file cfg fmap oracle f fs st log with
      | ok out =>
          simp only [hof]
          rw [ih]
          exact (organize_file_dry cfg fmap oracle f fs st log out hdry hof).1
      | error e =>
          simp only [hof]
          exact ih fs _ _

/-- **C2 (amended).** With `dry_run` set, `organize_directory` — folder
structure creation and all per-file processing included — performs no
file-system mutation whatsoever: the file system after the call is the one
before it.  (The claim as frozen fails only because *constructing* the
organizer writes the default configuration file when none exists, before the
dry-run flag can matter; see the counterexample.) -/
theorem organize_directory_dry_run_no_mutation (cfg : Config) (oracle : FsPath → Bool)
    (fs : FS) (source : FsPath) (recursive : Bool) (st : Stats)
    (hdry : cfg.dry_run = true) :
    (organize_directory cfg oracle fs source recursive st).1 = fs := by
  unfold organize_directory
  by_cases hex : fs.existsPath source = true
  · rw [if_pos hex]
    have hc := create_organized_structure_dry cfg source fs st hdry
    rw [processFiles_dry cfg _ oracle hdry]
    exact hc.1

  · rw [if_neg hex]

theorem organize_directory_dry_run_no_mutation_witness :
    (organize_directory { default_config with dry_run := true } (fun _ => false)
        ⟨[["src"]], []⟩ ["src"] false initStats).1 = (⟨[["src"]], []⟩ : FS) :=
  organize_directory_dry_run_no_mutation _ _ _ _ _ _ rfl

/-- **C2 (counterexample).** Running the organizer in dry-run mode (no
`--execute`, so `dry_run` is set before organizing) on a file system holding
only the empty source directory and *no configuration file* mutates the file
system: `load_config` writes `organizer_config.json` during construction,
dry-run notwithstanding.  So it is not the case that a dry-run invocation
performs no file-system mutation for every input. -/
theorem dry_run_first_invocation_writes_config :
    (runOrganizer ⟨[["src"]], []⟩ ["organizer_config.json"] ["src"] false false
        (fun _ => false)).1 ≠ (⟨[["src"]], []⟩ : FS) := by
  intro h
  have : (1 : Nat) = 0 := congrArg (fun fs => fs.files.length) h
  simp at this

/-- **C5.** When the source directory does not exist, `organize_directory`
reports the error and returns with the file system, the counters and hence
the set of processed files untouched: nothing is created, moved or copied. -/
theorem organize_directory_missing_source (cfg : Config) (oracle : FsPath → Bool)
    (fs : FS) (source : FsPath) (recursive : Bool) (st : Stats)
    (hmiss : fs.existsPath source = false) :
    organize_directory cfg oracle fs source recursive st = (fs, st, [msgNoSource]) := by
  unfold organize_directory
  rw [if_neg (by simp [hmiss])]

theorem organize_directory_missing_source_witness :
    organize_directory default_config (fun _ => false) ⟨[], []⟩ ["src"] true initStats =
      ((⟨[], []⟩ : FS), initStats, [msgNoSource]) :=
  organize_directory_missing_source _ _ _ _ _ _ rfl

/-- **C6.** An exception raised while processing a single file is caught by
the per-file loop of `organize_directory`: the errors counter is incremented
by one for that file, the failure is logged, and processing continues with
the remaining candidate files on the unchanged file system — a per-file
failure never aborts the run. -/
theorem processFiles_error_continues (cfg : Config) (fmap : List (String × FsPath))
    (oracle : FsPath → Bool) (f : FileEntry) (rest : List FileEntry)
    (fs : FS) (st : Stats) (log : List String) (e : String)
    (h : organize_file cfg fmap oracle f fs st log = .error e) :
    processFiles cfg fmap oracle (f :: rest) fs st log =
      processFiles cfg fmap oracle rest fs { st with errors := st.errors + 1 }
        (log ++ [msgFileError (fileName f.path)]) := by
  conv_lhs => unfold processFiles
  rw [h]

theorem processFiles_error_continues_witness :
    processFiles default_config [] (fun _ => true)
        [⟨["src", "a.txt"], ⟨2024, 1⟩, none⟩] ⟨[], []⟩ initStats [] =
      processFiles default_config [] (fun _ => true) [] ⟨[], []⟩
        { initStats with errors := initStats.errors + 1 }
        ([] ++ [msgFileError (fileName ["src", "a.txt"])]) :=
  processFiles_error_continues _ _ _ _ _ _ _ _ "OSError" rfl

theorem findFile_implies_exists (fs : FS) (p : FsPath) (e : FileEntry)
    (h : fs.findFile p = some e) : fs.existsPath p = true := by
  unfold FS.findFile at h
  unfold FS.existsPath
  rw [Bool.or_eq_true]
  right
  rw [List.any_eq_true]
  exact ⟨e, List.mem_of_find?_eq_some h,
    @List.find?_some _ (fun x => x.path == p) e fs.files h⟩

/-- **C7.** When the configuration file exists but fails to parse as JSON,
`load_config` logs the warning and falls back to the in-memory
`default_config` without touching the file system; consequently a whole run
(`runOrganizer`) behaves exactly as organizing under the default rules. -/
theorem load_config_invalid_defaults (fs : FS) (configPath : FsPath) (e : FileEntry)
    (hfind : fs.findFile configPath = some e) (hbad : e.content = none)
    (source : FsPath) (recursive execute : Bool) (oracle : FsPath → Bool) :
    load_config fs configPath = .ok (default_config, fs, [msgInvalidConfig]) ∧
    runOrganizer fs configPath source recursive execute oracle =
      (let cfg := if execute then default_config
        else { default_config with dry_run := true }
       let res := organize_directory cfg oracle fs source recursive initStats
       (res.1, res.2.1, msgInvalidConfig :: res.2.2)) := by
  have h1 : load_config fs configPath = .ok (default_config, fs, [msgInvalidConfig]) := by
    unfold load_config
    rw [if_pos (findFile_implies_exists fs configPath e hfind), hfind]
    simp [hbad]
  refine ⟨h1, ?_⟩
  unfold runOrganizer
  rw [h1]
  rfl

theorem load_config_invalid_defaults_witness :
    load_config ⟨[], [⟨["organizer_config.json"], ⟨2024, 1⟩, none⟩]⟩
        ["organizer_config.json"] =
      .ok (default_config, ⟨[], [⟨["organizer_config.json"], ⟨2024, 1⟩, none⟩]⟩,
        [msgInvalidConfig]) :=
  (load_config_invalid_defaults ⟨[], [⟨["organizer_config.json"], ⟨2024, 1⟩, none⟩]⟩
    ["organizer_config.json"] ⟨["organizer_config.json"], ⟨2024, 1⟩, none⟩ rfl rfl
    ["src"] false true (fun _ => false)).1

theorem organize_file_counters (cfg : Config) (fmap : List (String × FsPath))
    (oracle : FsPath → Bool) (f : FileEntry) (fs : FS) (st : Stats) (log : List String)
    (out : FS × Stats × List String)
    (h : organize_file cfg fmap oracle f fs st log = .ok out) :
    out.2.1.files_processed = st.files_processed ∧ out.2.1.errors = st.errors := by
  unfold organize_file at h
  cases hc1 : cfg.create_date_folders <;> cases hc2 : cfg.dry_run <;>
    cases hc3 : cfg.backup_enabled <;>
    simp only [hc1, hc2, hc3, Bool.not_true, Bool.not_false, Bool.and_true, Bool.and_false,
      Bool.true_and, Bool.false_and, Bool.false_eq_true, if_false, if_true] at h <;>
    repeat' split at h
  all_goals
    first
      | exact Except.noConfusion h
      | (simp only [Except.ok.injEq] at h
         subst h
         exact ⟨rfl, rfl⟩)

theorem processFiles_count (cfg : Config) (fmap : List (String × FsPath))
    (oracle : FsPath → Bool) :
    ∀ files (fs : FS) (st : Stats) (log : List String),
      (processFiles cfg fmap oracle files fs st log).2.1.files_processed +
        (processFiles cfg fmap oracle files fs st log).2.1.errors =
      st.files_processed + st.errors + files.length := by
  intro files
  induction files with
  | nil => intro fs st log; simp [processFiles]
  | cons f rest ih =>
      intro fs st log
      conv_lhs => unfold processFiles
      conv_rhs => unfold processFiles
      cases hof : organize_file cfg fmap oracle f fs st log with
      | ok out =>
          simp only [hof]
          rw [ih]
          obtain ⟨h1, h2⟩ := organize_file_counters cfg fmap oracle f fs st log out hof
          simp only [h1, h2, List.length_cons]
          omega
      | error e =>
          simp only [hof]
          rw [ih]
          simp only [List.length_cons]
          omega

theorem createSubDirs_counters (dry : Bool) (cname : String) (cpath : FsPath) :
    ∀ sfs (fs : FS) (st : Stats) m,
      (createSubDirs dry cname cpath sfs fs st m).2.1.files_processed = st.files_processed ∧
      (createSubDirs dry cname cpath sfs fs st m).2.1.errors = st.errors := by
  intro sfs
  induction sfs with
  | nil => intro fs st m; exact ⟨rfl, rfl⟩
  | cons sf rest ih =>
      intro fs st m
      cases dry with
      | true => exact ih fs st _
      | false =>
          obtain ⟨i1, i2⟩ := ih (fs.mkdir1 (cpath ++ [sf.name]))
            { st with directories_created := st.directories_created + 1 }
            ((cname ++ "_" ++ sf.name, cpath ++ [sf.name]) :: m)
          exact ⟨i1, i2⟩

theorem createCategoryDirs_counters (dry : Bool) (organized : FsPath) :
    ∀ rules (fs : FS) (st : Stats) m,
      (createCategoryDirs dry organized rules fs st m).2.1.files_processed = st.files_processed ∧
      (createCategoryDirs dry organized rules fs st m).2.1.errors = st.errors := by
  intro rules
  induction rules with
  | nil => intro fs st m; exact ⟨rfl, rfl⟩
  | cons r rest ih =>
      intro fs st m
      have key : createCategoryDirs dry organized (r :: rest) fs st m =
          createCategoryDirs dry organized rest
            (createSubDirs dry r.name (organized ++ [r.folder]) (r.subfolders.getD [])
              (if dry then fs else fs.mkdirP (organized ++ [r.folder]))
              (if dry then st else { st with directories_created := st.directories_created + 1 })
              ((r.name, organized ++ [r.folder]) :: m)).1
            (createSubDirs dry r.name (organized ++ [r.folder]) (r.subfolders.getD [])
              (if dry then fs else fs.mkdirP (organized ++ [r.folder]))
              (if dry then st else { st with directories_created := st.directories_created + 1 })
              ((r.name, organized ++ [r.folder]) :: m)).2.1
            (createSubDirs dry r.name (organized ++ [r.folder]) (r.subfolders.getD [])
              (if dry then fs else fs.mkdirP (organized ++ [r.folder]))
              (if dry then st else { st with directories_created := st.directories_created + 1 })
              ((r.name, organized ++ [r.folder]) :: m)).2.2 := by
        cases dry <;> rfl
      rw [key]
      obtain ⟨s1, s2⟩ := createSubDirs_counters dry r.name (organized ++ [r.folder])
        (r.subfolders.getD [])
        (if dry then fs else fs.mkdirP (organized ++ [r.folder]))
        (if dry then st else { st with directories_created := st.directories_created + 1 })
        ((r.name, organized ++ [r.folder]) :: m)
      obtain ⟨c1, c2⟩ := ih
        (createSubDirs dry r.name (organized ++ [r.folder]) (r.subfolders.getD [])
          (if dry then fs else fs.mkdirP (organized ++ [r.folder]))
          (if dry then st else { st with directories_created := st.directories_created + 1 })
          ((r.name, organized ++ [r.folder]) :: m)).1
        (createSubDirs dry r.name (organized ++ [r.folder]) (r.subfolders.getD [])
          (if dry then fs else fs.mkdirP (organized ++ [r.folder]))
          (if dry then st else { st with directories_created := st.directories_created + 1 })
          ((r.name, organized ++ [r.folder]) :: m)).2.1
        (createSubDirs dry r.name (organized ++ [r.folder]) (r.subfolders.getD [])
          (if dry then fs else fs.mkdirP (organized ++ [r.folder]))
          (if dry then st else { st with directories_created := st.directories_created + 1 })
          ((r.name, organized ++ [r.folder]) :: m)).2.2
      constructor
      · rw [c1, s1]
        cases dry <;> rfl
      · rw [c2, s2]
        cases dry <;> rfl

theorem create_organized_structure_counters (cfg : Config) (base : FsPath)
    (fs : FS) (st : Stats) :
    (create_organized_structure cfg base fs st).2.1.files_processed = st.files_processed ∧
    (create_organized_structure cfg base fs st).2.1.errors = st.errors := by
  unfold create_organized_structure
  exact createCategoryDirs_counters cfg.dry_run _ cfg.rules fs st []

/-- **C10.** On an existing source directory, every candidate file increments
exactly one of `files_processed` or `errors`, so after the run their sum has
grown by exactly the number of candidate files gathered. -/
theorem organize_directory_counter_invariant (cfg : Config) (oracle : FsPath → Bool)
    (fs : FS) (source : FsPath) (recursive : Bool) (st : Stats)
    (hex : fs.existsPath source = true) :
    (organize_directory cfg oracle fs source recursive st).2.1.files_processed +
      (organize_directory cfg oracle fs source recursive st).2.1.errors =
    st.files_processed + st.errors +
      (candidateFiles cfg (create_organized_structure cfg source fs st).1
        source recursive).length := by
  unfold organize_directory
  rw [if_pos hex]
  rw [processFiles_count]
  obtain ⟨h1, h2⟩ := create_organized_structure_counters cfg source fs st
  rw [h1, h2]

theorem organize_directory_counter_invariant_witness :
    (organize_directory default_config (fun _ => false)
        ⟨[["src"]], []⟩ ["src"] false initStats).2.1.files_processed +
      (organize_directory default_config (fun _ => false)
        ⟨[["src"]], []⟩ ["src"] false initStats).2.1.errors =
    initStats.files_processed + initStats.errors +
      (candidateFiles default_config
        (create_organized_structure default_config ["src"] ⟨[["src"]], []⟩ initStats).1
        ["src"] false).length :=
  organize_directory_counter_invariant _ _ _ _ _ _ rfl

/-- **C4 (amended).** In recursive mode the candidate set is exactly the
files reachable below the source directory (through existing, non-pruned
directories) whose full path string does not contain `"organized"` as a
substring: a file is gathered iff it lies strictly below the source, every
directory strictly between the source and the file exists and has a name
that does not contain (case-insensitively) any configured ignore entry, and
`"organized"` does not occur anywhere in `str(file_path)`.  In particular
everything under the organized root is excluded — but so is any file whose
own name merely contains `"organized"`, and any file inside a directory
whose name merely *contains* an ignore entry, which is where the claim as
frozen fails (see the counterexample). -/
theorem gatherRecursive_mem (cfg : Config) (fs : FS) (source : FsPath) (f : FileEntry) :
    f ∈ gatherRecursive cfg fs source ↔
      f ∈ fs.files ∧ source <+: f.path ∧ source.length < f.path.length ∧
      (∀ k, source.length < k → k < f.path.length → f.path.take k ∈ fs.dirs) ∧
      (∀ d ∈ (f.path.drop source.length).dropLast, should_ignore_folder cfg d = false) ∧
      ¬ "organized".data <:+: (pathStr f.path).data := by
  unfold gatherRecursive isCandidate ancestorsExist strContains
  rw [List.mem_filter]
  simp only [Bool.and_eq_true, decide_eq_true_eq, List.all_eq_true, Bool.not_eq_true',
    decide_eq_false_iff_not, List.mem_range'_1, List.isPrefixOf_iff_prefix,
    List.elem_eq_mem]
  constructor
  · rintro ⟨hmem, ⟨⟨⟨⟨hpre, hlt⟩, hanc⟩, hign⟩, horg⟩⟩
    refine ⟨hmem, hpre, hlt, ?_, hign, horg⟩
    intro k hk1 hk2
    exact hanc k ⟨by omega, by omega⟩
  · rintro ⟨hmem, hpre, hlt, hanc, hign, horg⟩
    refine ⟨hmem, ⟨⟨⟨⟨hpre, hlt⟩, ?_⟩, hign⟩, horg⟩⟩
    intro k hk
    exact hanc k (by omega) (by omega)

/-- **C4 (counterexample).** On a file system whose source directory `src`
directly contains the single file `well_organized.txt`, the recursive
gathering yields no candidates at all, although that file is *not* under the
organized root `src/organized` and sits inside no ignore-folder (it is a
direct child of the source).  The walk's test `"organized" not in
str(file_path)` matches the substring inside the file's own name, so the
claim that every such file is included is false. -/
theorem gatherRecursive_excludes_wrongly :
    gatherRecursive default_config
        ⟨[["src"]], [⟨["src", "well_organized.txt"], ⟨2024, 5⟩, none⟩]⟩ ["src"] = [] ∧
      ¬ ["src", "organized"] <+: ["src", "well_organized.txt"] ∧
      (["src", "well_organized.txt"].drop 1).dropLast = [] := by
  refine ⟨by decide, by decide, by decide⟩

theorem mkdir1_files (fs : FS) (p : FsPath) : (fs.mkdir1 p).files = fs.files := by
  unfold FS.mkdir1
  split <;> rfl

theorem childName_self (dir : FsPath) : childName dir dir = none := by
  unfold childName
  cases hgl : dir.getLast? with
  | none => rfl
  | some n =>
      dsimp only
      rw [if_neg]
      intro hcontra
      have := congrArg List.length hcontra
      simp at this

theorem childName_eq_some (dir p : FsPath) (n : String) :
    childName dir p = some n ↔ p = dir ++ [n] := by
  constructor
  · intro h
    unfold childName at h
    cases hgl : p.getLast? with
    | none => rw [hgl] at h; exact absurd h (by simp)
    | some m =>
        rw [hgl] at h
        dsimp only at h
        by_cases hp : p = dir ++ [m]
        · rw [if_pos hp] at h
          obtain rfl : m = n := by simpa using h
          exact hp
        · rw [if_neg hp] at h
          exact absurd h (by simp)
  · rintro rfl
    unfold childName
    rw [List.getLast?_concat]
    dsimp only
    rw [if_pos rfl]

theorem mem_namesIn (fs : FS) (dir : FsPath) (n : String) :
    n ∈ namesIn fs dir ↔ fs.existsPath (dir ++ [n]) = true := by
  unfold namesIn FS.existsPath
  rw [List.mem_append, Bool.or_eq_true, List.any_eq_true]
  constructor
  · rintro (h | h)
    · left
      obtain ⟨p, hp, hcn⟩ := List.mem_filterMap.mp h
      obtain rfl := (childName_eq_some dir p n).mp hcn
      simpa only [List.elem_eq_mem, decide_eq_true_eq] using hp
    · right
      obtain ⟨e, he, hcn⟩ := List.mem_filterMap.mp h
      exact ⟨e, he, by simp [(childName_eq_some dir e.path n).mp hcn]⟩
  · rintro (h | h)
    · refine Or.inl (List.mem_filterMap.mpr ⟨dir ++ [n], ?_, (childName_eq_some dir _ n).mpr rfl⟩)
      simpa only [List.elem_eq_mem, decide_eq_true_eq] using h
    · obtain ⟨e, he, heq⟩ := h
      have hp : e.path = dir ++ [n] := by simpa using heq
      refine Or.inr (List.mem_filterMap.mpr ⟨e, he, ?_⟩)
      rw [hp]
      exact (childName_eq_some dir _ n).mpr rfl

theorem namesIn_mkdir1_self (fs : FS) (dir : FsPath) :
    namesIn (fs.mkdir1 dir) dir = namesIn fs dir := by
  unfold FS.mkdir1
  split
  · rfl
  · unfold namesIn
    simp [List.filterMap_cons, childName_self]

theorem splitName_append (name : String) :
    (splitName name).1 ++ (splitName name).2 = name := by
  unfold splitName
  dsimp only
  split
  · split
    · apply String.ext
      simp [String.data_append]
    · apply String.ext
      simp [String.data_append]
  · apply String.ext
    simp [String.data_append]

theorem conflictName_zero (stem suffix : String) :
    conflictName stem suffix 0 = stem ++ suffix := rfl

/-- **C3 (amended).** When the resolved destination path of a file already
exists *and the destination lies below `file_path.parent.parent`* (true for
every file organized non-recursively and for recursive files at most two
levels below the source), `organize_file` succeeds and renames by appending
`_1`, `_2`, … to the stem, before the extension, at the least counter
`c ≥ 1` whose name does not yet exist in the destination folder; the file is
placed at that fresh path and every file previously on disk — in particular
the one at the contested destination — survives untouched (only the source
entry moves in move mode).  The extra hypothesis is forced: for a deeper
file `dest_path.relative_to(file_path.parent.parent)` raises `ValueError`
before any copy or move and the file is never placed (see the
counterexample). -/
theorem organize_file_collision (cfg : Config) (fmap : List (String × FsPath))
    (oracle : FsPath → Bool) (f : FileEntry) (fs : FS) (st : Stats) (log : List String)
    (dir : FsPath)
    (hdir : finalDestFolder cfg fmap f = some dir)
    (horacle : oracle f.path = false)
    (hdry : cfg.dry_run = false)
    (hrel : f.path.dropLast.dropLast <+: dir)
    (hex : fs.existsPath (dir ++ [fileName f.path]) = true) :
    ∃ c fs1 st1 log1, 1 ≤ c ∧
      organize_file cfg fmap oracle f fs st log = .ok (fs1, st1, log1) ∧
      fs.existsPath (dir ++ [conflictName (splitName (fileName f.path)).1
        (splitName (fileName f.path)).2 c]) = false ∧
      (∀ i, 1 ≤ i → i < c →
        fs.existsPath (dir ++ [conflictName (splitName (fileName f.path)).1
          (splitName (fileName f.path)).2 i]) = true) ∧
      (⟨dir ++ [conflictName (splitName (fileName f.path)).1
        (splitName (fileName f.path)).2 c], f.mtime, f.content⟩ : FileEntry) ∈ fs1.files ∧
      ∀ e ∈ fs.files, e.path ≠ f.path → e ∈ fs1.files := by
  obtain ⟨d0, hd0, hdirEq⟩ : ∃ d0, destFolder0 cfg fmap (fileName f.path) = some d0 ∧
      (if cfg.create_date_folders then d0 ++ [formatYM f.mtime] else d0) = dir := by
    unfold finalDestFolder at hdir
    cases hd : destFolder0 cfg fmap (fileName f.path) with
    | none => rw [hd] at hdir; exact absurd hdir (by simp)
    | some d0 => rw [hd] at hdir; exact ⟨d0, rfl, by simpa using hdir⟩
  have hfs1files :
      (if cfg.create_date_folders && !cfg.dry_run then fs.mkdir1 dir else fs).files =
        fs.files := by
    split
    · exact mkdir1_files fs dir
    · rfl
  have htaken :
      namesIn (if cfg.create_date_folders && !cfg.dry_run then fs.mkdir1 dir else fs) dir =
        namesIn fs dir := by
    split
    · exact namesIn_mkdir1_self fs dir
    · rfl
  have hmem0 : conflictName (splitName (fileName f.path)).1
      (splitName (fileName f.path)).2 0 ∈ namesIn fs dir := by
    rw [conflictName_zero, splitName_append]
    exact (mem_namesIn fs dir (fileName f.path)).mpr hex
  obtain ⟨jq, hjq, hescape⟩ := conflict_escape (namesIn fs dir)
    (splitName (fileName f.path)).1 (splitName (fileName f.path)).2
  obtain ⟨j, hjlt, heq, hfree, hmin⟩ :=
    findFree_spec (namesIn fs dir) (splitName (fileName f.path)).1
      (splitName (fileName f.path)).2 ((namesIn fs dir).length + 1) 0
      ⟨jq, hjq, by simpa using hescape⟩
  simp only [Nat.zero_add] at heq hfree hmin
  have hj0 : j ≠ 0 := fun hj => hfree (hj ▸ hmem0)
  have hdestfree : fs.existsPath (dir ++ [conflictName (splitName (fileName f.path)).1
      (splitName (fileName f.path)).2 j]) = false :=
    Bool.eq_false_iff.mpr (fun hx => hfree ((mem_namesIn fs dir _).mpr hx))
  have hminTrue : ∀ i, 1 ≤ i → i < j →
      fs.existsPath (dir ++ [conflictName (splitName (fileName f.path)).1
        (splitName (fileName f.path)).2 i]) = true :=
    fun i _ hlt => (mem_namesIn fs dir _).mp (hmin i hlt)
  have hof : organize_file cfg fmap oracle f fs st log =
      (if cfg.backup_enabled then
        .ok ((if cfg.create_date_folders && !cfg.dry_run then fs.mkdir1 dir else fs).copyTo f
            (dir ++ [conflictName (splitName (fileName f.path)).1
              (splitName (fileName f.path)).2 j]),
          { st with files_moved := st.files_moved + 1 },
          log ++ [actionMsg cfg (fileName f.path)])
       else
        .ok (((if cfg.create_date_folders && !cfg.dry_run then fs.mkdir1 dir
              else fs).removeFile f.path).copyTo f
            (dir ++ [conflictName (splitName (fileName f.path)).1
              (splitName (fileName f.path)).2 j]),
          { st with files_moved := st.files_moved + 1 },
          log ++ [actionMsg cfg (fileName f.path)])) := by
    unfold organize_file
    rw [if_neg (show ¬ oracle f.path = true by simp [horacle]), hd0]
    dsimp only
    rw [hdirEq, htaken, heq]
    dsimp only
    rw [if_pos (show (f.path.dropLast.dropLast).isPrefixOf
        (dir ++ [conflictName (splitName (fileName f.path)).1
          (splitName (fileName f.path)).2 j]) = true by
      rw [List.isPrefixOf_iff_prefix]
      exact hrel.trans ⟨[conflictName (splitName (fileName f.path)).1
        (splitName (fileName f.path)).2 j], rfl⟩)]
    rw [if_neg (show ¬ cfg.dry_run = true by simp [hdry])]
  have hexistsOf : ∀ e ∈ fs.files, e.path ≠ dir ++ [conflictName
      (splitName (fileName f.path)).1 (splitName (fileName f.path)).2 j] := by
    intro e he hEq
    have : fs.existsPath (dir ++ [conflictName (splitName (fileName f.path)).1
        (splitName (fileName f.path)).2 j]) = true := by
      unfold FS.existsPath
      rw [Bool.or_eq_true]
      right
      rw [List.any_eq_true]
      exact ⟨e, he, by simp [hEq]⟩
    rw [hdestfree] at this
    simp at this
  cases hb : cfg.backup_enabled with
  | true =>
      rw [if_pos hb] at hof
      refine ⟨j, _, _, _, Nat.one_le_iff_ne_zero.mpr hj0, hof, hdestfree, hminTrue, ?_, ?_⟩
      · exact List.mem_cons_self _ _
      · intro e he hne
        show e ∈ _ :: List.filter _ _
        apply List.mem_cons_of_mem
        apply List.mem_filter.mpr
        refine ⟨?_, ?_⟩
        · rw [hfs1files]
          exact he
        · simp only [bne_iff_ne, ne_eq, decide_eq_true_eq]
          exact hexistsOf e he
  | false =>
      rw [if_neg (by simp [hb])] at hof
      refine ⟨j, _, _, _, Nat.one_le_iff_ne_zero.mpr hj0, hof, hdestfree, hminTrue, ?_, ?_⟩
      · exact List.mem_cons_self _ _
      · intro e he hne
        show e ∈ _ :: List.filter _ _
        apply List.mem_cons_of_mem
        apply List.mem_filter.mpr
        refine ⟨?_, ?_⟩
        · show e ∈ List.filter _ _
          apply List.mem_filter.mpr
          refine ⟨?_, ?_⟩
          · rw [hfs1files]
            exact he
          · simp only [bne_iff_ne, ne_eq, decide_eq_true_eq]
            exact hne
        · simp only [bne_iff_ne, ne_eq, decide_eq_true_eq]
          exact hexistsOf e he

theorem organize_file_collision_witness :
    ∃ c fs1 st1 log1, 1 ≤ c ∧
      organize_file cfgW fmapW (fun _ => false) fW fsW initStats [] = .ok (fs1, st1, log1) ∧
      fsW.existsPath (["d", "Docs"] ++ [conflictName (splitName (fileName fW.path)).1
        (splitName (fileName fW.path)).2 c]) = false ∧
      (∀ i, 1 ≤ i → i < c →
        fsW.existsPath (["d", "Docs"] ++ [conflictName (splitName (fileName fW.path)).1
          (splitName (fileName fW.path)).2 i]) = true) ∧
      (⟨["d", "Docs"] ++ [conflictName (splitName (fileName fW.path)).1
        (splitName (fileName fW.path)).2 c], fW.mtime, fW.content⟩ : FileEntry) ∈ fs1.files ∧
      ∀ e ∈ fsW.files, e.path ≠ fW.path → e ∈ fs1.files :=
  organize_file_collision cfgW fmapW (fun _ => false) fW fsW initStats [] ["d", "Docs"]
    (by decide) rfl rfl (by decide) (by decide)

set_option maxRecDepth 100000 in
/-- **C3 (counterexample).** The frozen claim fails for files more than two
levels below the source.  In a real recursive run under `cfgW` on `fsD`, the
file `src/a/b/c.txt` is gathered by the walk, its resolved destination
`src/organized/Docs/c.txt` (through the folder map that
`create_organized_structure` builds) already exists, and the run is not a
dry run — yet `organize_file` raises `ValueError` at
`dest_path.relative_to(file_path.parent.parent)` (`src/a` does not contain
the organized root) instead of placing the file at the suffixed path:
the claim's promised placement never happens. -/
theorem organize_file_collision_counterexample :
    fD ∈ gatherRecursive cfgW (create_organized_structure cfgW ["src"] fsD initStats).1
      ["src"] ∧
    finalDestFolder cfgW (create_organized_structure cfgW ["src"] fsD initStats).2.2 fD =
      some ["src", "organized", "Docs"] ∧
    (create_organized_structure cfgW ["src"] fsD initStats).1.existsPath
      (["src", "organized", "Docs"] ++ [fileName fD.path]) = true ∧
    cfgW.dry_run = false ∧
    organize_file cfgW (create_organized_structure cfgW ["src"] fsD initStats).2.2
      (fun _ => false) fD (create_organized_structure cfgW ["src"] fsD initStats).1
      initStats [] = .error "ValueError" :=
  ⟨by decide, by decide, by decide, rfl, rfl⟩

set_option maxRecDepth 100000 in
/-- **C9.** A file `screenshot_2024.png` in the source directory, under the
default rules (date folders enabled, copy mode) with no pre-existing entry at
the destination, is classified as `("images", "screenshots")` and placed at
`organized/Images/screenshots/2024-0M/screenshot_2024.png`, where `2024-0M`
is `strftime("%Y-%m")` of the file's last-modified timestamp (here a month
`m ≤ 9`, so the month digit is zero-padded). -/
theorem organize_screenshot_example (m : Nat) (h1 : 1 ≤ m) (h9 : m ≤ 9) :
    get_file_category default_config "screenshot_2024.png" = ("images", "screenshots") ∧
    formatYM ⟨2024, m⟩ = "2024-0" ++ natRepr m ∧
    (⟨["src", "organized", "Images", "screenshots", "2024-0" ++ natRepr m,
        "screenshot_2024.png"], ⟨2024, m⟩, none⟩ : FileEntry) ∈
      (organize_directory default_config (fun _ => false)
        ⟨[["src"]], [⟨["src", "screenshot_2024.png"], ⟨2024, m⟩, none⟩]⟩
        ["src"] false initStats).1.files := by
  interval_cases m <;> decide

set_option maxRecDepth 100000 in
theorem organize_screenshot_example_witness :
    get_file_category default_config "screenshot_2024.png" = ("images", "screenshots") ∧
    formatYM ⟨2024, 5⟩ = "2024-0" ++ natRepr 5 ∧
    (⟨["src", "organized", "Images", "screenshots", "2024-0" ++ natRepr 5,
        "screenshot_2024.png"], ⟨2024, 5⟩, none⟩ : FileEntry) ∈
      (organize_directory default_config (fun _ => false)
        ⟨[["src"]], [⟨["src", "screenshot_2024.png"], ⟨2024, 5⟩, none⟩]⟩
        ["src"] false initStats).1.files :=
  organize_screenshot_example 5 (by decide) (by decide)
